import Mathlib

/-!
# Verification of the manhwa/toongod scraper pipeline

A shallow embedding, in Lean 4, of the content-discovery and download
pipeline implemented in `manhwa_scraper.py` (class `ManhwaScraper`) and
`toongod_scraper.py` (class `ToonGodScraper`).

Strings are modelled as `List Char` (`Str`).  The network, the filesystem
and the thread pool are modelled explicitly: page fetches are oracles
returning `Except`/`Option` values, the filesystem is the list of existing
paths, and a worker pool's completion order is an explicit list of task
indices (a permutation of the submission order).  Pure parsing helpers of
the Python standard library (`urllib.parse.urljoin`, `urlparse().netloc`,
`str.strip`, `int`, f-string padding, `sorted`) are embedded directly;
Python's `sorted` is stable by specification, and a stable sort under a
total preorder is unique, so it is modelled by `List.insertionSort`,
whose stability Mathlib proves (`List.sublist_insertionSort`).
-/

/-- Python strings are modelled as lists of characters. -/
abbrev Str := List Char

/-- Coerce a Lean string literal into the `Str` model. -/
def strOf (s : String) : Str := s.toList

/-- Model: `strStarts s p`: does `s` start with the pattern `p`?
Model of Python's `str.startswith`. -/
def strStarts : Str → Str → Bool
  | _, [] => true
  | [], _ :: _ => false
  | c :: s, p :: ps => c == p && strStarts s ps

/-- Model: `strHasSub s p`: does `p` occur as a contiguous substring of `s`?
Model of Python's `p in s`. -/
def strHasSub : Str → Str → Bool
  | [], pat => strStarts [] pat
  | c :: rest, pat => strStarts (c :: rest) pat || strHasSub rest pat

/-- Model of Python's `str.lower` (character-wise). -/
def strLower (s : Str) : Str := s.map Char.toLower

/-- Model of Python's `str.strip()`: remove leading and trailing whitespace. -/
def pyStrip (s : Str) : Str :=
  ((s.dropWhile Char.isWhitespace).reverse.dropWhile Char.isWhitespace).reverse

/-- The value of a digit string, as computed by Python's `int` on a string of
decimal digits. -/
def intOfDigits (s : Str) : Nat :=
  s.foldl (fun n c => n * 10 + (c.toNat - 48)) 0

/-- Model: `re.search(r'(\d+)', s)`: the first maximal run of decimal digits in `s`,
if any. -/
def firstDigitRun (s : Str) : Option Str :=
  let t := s.dropWhile (fun c => !c.isDigit)
  if t.isEmpty then none else some (t.takeWhile Char.isDigit)

/-- A character matched by the regex class `[\w-]` (ASCII reading of `\w`). -/
def isWordChar (c : Char) : Bool := c.isAlphanum || c = '_' || c = '-'

/-- A character allowed inside a URL scheme by `urllib.parse.urlsplit`. -/
def isSchemeChar (c : Char) : Bool := c.isAlphanum || c = '+' || c = '-' || c = '.'

/-- Split a string at its first colon: `some (before, after)` if a colon
occurs, `none` otherwise. -/
def splitAtColon : Str → Option (Str × Str)
  | [] => none
  | c :: rest =>
    if c = ':' then some ([], rest)
    else match splitAtColon rest with
      | some (b, a) => some (c :: b, a)
      | none => none

/-- Model of `urllib.parse.urlparse(url).netloc`: if the text before the first
colon is a well-formed scheme it is stripped; the authority component is then
present iff the remainder begins with `//`, and extends to the next `/`, `?`
or `#`. -/
def netloc (url : Str) : Str :=
  let rest :=
    match splitAtColon url with
    | some (b, a) =>
      if !b.isEmpty && (b.headD 'a').isAlpha && b.all isSchemeChar then a else url
    | none => url
  match rest with
  | '/' :: '/' :: r => r.takeWhile (fun c => c ≠ '/' && c ≠ '?' && c ≠ '#')
  | _ => []

/-- Modelled from the Python standard library collaborator
`urllib.parse.urljoin`, simplified: an absolute `http(s)` reference is
returned unchanged, any other reference is resolved against the base by
concatenation.  The claims settled here use joined URLs only as opaque
deduplication keys. -/
def urljoin (base url : Str) : Str :=
  if strStarts url (strOf "http") then url else base ++ url

/-- The recognised image extensions (`image_extensions` in
`ManhwaScraper._is_valid_image_url`, and the inline list in
`ToonGodScraper._is_valid_image_url`). -/
def imageExtensions : List Str :=
  [strOf ".jpg", strOf ".jpeg", strOf ".png", strOf ".webp", strOf ".gif"]

/-- First-occurrence-wins deduplication by a key, as done with a `seen` set
and an output list in both scrapers' `extract_chapters` and in
`ToonGodScraper.extract_images_from_chapter`. -/
def dedupByKey {α β : Type} [DecidableEq β] (key : α → β) : List β → List α → List α
  | _, [] => []
  | seen, x :: rest =>
    if key x ∈ seen then dedupByKey key seen rest
    else x :: dedupByKey key (key x :: seen) rest

/-- Model: `f"{i:03d}"`: decimal digits of `i` left-padded with zeros to width 3. -/
def pad3 (i : Nat) : Str :=
  let d := Nat.toDigits 10 i
  List.replicate (3 - d.length) '0' ++ d

/-- The destination filename `page_NNN.jpg` for 1-based page index `i`. -/
def pageFilename (i : Nat) : Str := strOf "page_" ++ pad3 i ++ strOf ".jpg"

/-- A discovered chapter: `{'number': ..., 'title': ..., 'url': ...}`. -/
structure Chapter where
  number : Str
  title : Str
  url : Str
deriving DecidableEq, Repr

namespace ManhwaScraper

/-- Model: `ManhwaScraper.sanitize_filename` (manhwa_scraper.py lines 67-69):
`re.sub(r'[<>:"/\\|?*]', '_', filename)`.  The single-character regex class
makes the substitution a character-wise map. -/
def badChars : List Char := ['<', '>', ':', '"', '/', '\\', '|', '?', '*']

/-- The per-character action of `re.sub(r'[<>:"/\\|?*]', '_', ·)`. -/
def sanitizeChar (c : Char) : Char := if c ∈ badChars then '_' else c

/-- Model: `ManhwaScraper.sanitize_filename` (lines 67-69). -/
def sanitize_filename (s : Str) : Str := s.map sanitizeChar

/-- Does `re.compile(r'/manhwa/[^/]+/chapter-')` match at the head of `s`?
`[^/]+` cannot cross a `/` and the next literal is `/`, so the run is forced
to end at the first slash. -/
def manhwaHrefMatchAt (s : Str) : Bool :=
  if strStarts s (strOf "/manhwa/") then
    let rest := s.drop 8
    let seg := rest.takeWhile (fun c => c ≠ '/')
    !seg.isEmpty && strStarts (rest.drop seg.length) (strOf "/chapter-")
  else false

/-- Model: `re.search` of `r'/manhwa/[^/]+/chapter-'` over a href, as used by
`soup.find_all('a', href=re.compile(...))` (line 179). -/
def manhwaHrefPat : Str → Bool
  | [] => false
  | c :: rest => manhwaHrefMatchAt (c :: rest) || manhwaHrefPat rest

/-- Model: `re.search(r'chapter-(\d+)', href)` (line 185): the captured digit run of
the leftmost occurrence of `chapter-` followed by at least one digit. -/
def find_chapter_num : Str → Option Str
  | [] => none
  | c :: rest =>
    if strStarts (c :: rest) (strOf "chapter-") then
      let run := ((c :: rest).drop 8).takeWhile Char.isDigit
      if run.isEmpty then find_chapter_num rest else some run
    else find_chapter_num rest

/-- The raw chapter records built by the anchor loop of
`ManhwaScraper.extract_chapters` (lines 177-197).  An anchor is a pair
`(href, text)` where `text` is the anchor's `get_text(strip=True)`. -/
def make_chapters (base : Str) (anchors : List (Str × Str)) : List Chapter :=
  anchors.filterMap (fun a =>
    if !manhwaHrefPat a.1 then none
    else if a.1.isEmpty then none
    else match find_chapter_num a.1 with
      | none => none
      | some num =>
        let title := if a.2.isEmpty then strOf "Chapter " ++ num else a.2
        some ⟨num, title, urljoin base a.1⟩)

/-- The sort key `lambda x: int(x['number'])` of line 202. -/
def chapterKey (c : Chapter) : Nat := intOfDigits c.number

/-- Model: `ManhwaScraper.extract_chapters` (lines 171-208) applied to the parsed
anchor list: build records, sort by numeric chapter number (Python `sorted`
is specified to be stable, and a stable sort of a list under a total
preorder is unique, so it is modelled by the stable `List.insertionSort`),
then deduplicate by URL keeping the first occurrence. -/
def extract_chapters_pipeline (base : Str) (anchors : List (Str × Str)) : List Chapter :=
  let chapters := make_chapters base anchors
  let sorted := @List.insertionSort Chapter (fun a b => chapterKey a ≤ chapterKey b)
    (fun a b => Nat.decLe (chapterKey a) (chapterKey b)) chapters
  dedupByKey (fun c => c.url) [] sorted

/-- Model: `ManhwaScraper.get_soup` (lines 143-169) in the requests configuration:
a transport failure (`requests.RequestException`) is caught and surfaces as
`None`; a successful response parses to a page. -/
def get_soup {Page : Type} (response : Except Str Page) : Option Page :=
  match response with
  | .ok page => some page
  | .error _ => none

/-- Model: `ManhwaScraper.extract_chapters` (lines 171-175) reading its page through
`get_soup`: absence of a page yields an empty list. -/
def extract_chapters (fetch : Str → Except Str (List (Str × Str))) (base url : Str) :
    List Chapter :=
  match get_soup (fetch url) with
  | none => []
  | some anchors => extract_chapters_pipeline base anchors

/-- Model: `ManhwaScraper._is_valid_image_url` (lines 307-340).  The `netloc` guard
is the `urlparse(url).netloc.lower()` non-emptiness check. -/
def is_valid_image_url (url : Str) : Bool :=
  if url.isEmpty then false
  else if strStarts url (strOf "blob:") || strStarts url (strOf "data:") then false
  else if !(imageExtensions.any (fun ext => strHasSub (strLower url) ext)) then false
  else if !strStarts url (strOf "http") then false
  else !(netloc url).isEmpty

/-- A chapter page as seen by `ManhwaScraper.extract_images_from_chapter`:
the per-tag attribute candidates of method 1 (values of
`data-src`, `data-original`, `data-lazy-src`, `data-url`, `src` in that
order, `none` when the attribute is absent), and the raw regex harvests of
methods 2 (inline scripts), 3 (whole-page text) and 4 (container styles). -/
structure ChapterPage where
  imgTags : List (List (Option Str))
  scriptUrls : List Str
  textUrls : List Str
  styleUrls : List Str

/-- Method 1's inner attribute loop (lines 220-227): the first present
attribute value that passes `valid` wins for the tag; invalid values fall
through to the next attribute. -/
def firstValidAttr (valid : Str → Bool) (tag : List (Option Str)) : Option Str :=
  tag.findSome? (fun v? => match v? with
    | some v => if valid v then some v else none
    | none => none)

/-- Model: `if not url.startswith('http'): url = urljoin(self.base_url, url)`
(lines 245-246, 262-263, 280-281). -/
def absolutize (base u : Str) : Str :=
  if strStarts u (strOf "http") then u else urljoin base u

/-- Model: `if self._is_valid_image_url(url) and url not in images: images.append(url)`
(lines 247-248 and analogues in methods 3 and 4). -/
def addIfValid (images : List Str) (u : Str) : List Str :=
  if is_valid_image_url u && !(decide (u ∈ images)) then images ++ [u] else images

/-- Model: `if url not in images: images.append(url)` (lines 287-289, method 5 -
the constructed URLs are appended without a validity check). -/
def addIfNew (images : List Str) (u : Str) : List Str :=
  if u ∈ images then images else images ++ [u]

/-- The deduplicated, validity-filtered candidate list of
`ManhwaScraper.extract_images_from_chapter` before the cap (lines 216-295).
The output of the method-5 URL construction (`_construct_image_urls`) is
taken as a parameter `constructed`; whatever it yields is appended uncapped
and then subjected to the final validity filter of lines 292-295. -/
def extract_images_precap (base : Str) (page : ChapterPage) (constructed : List Str) :
    List Str :=
  let m1 := page.imgTags.foldl (fun acc tag =>
    match firstValidAttr is_valid_image_url tag with
    | some v => if v ∈ acc then acc else acc ++ [v]
    | none => acc) []
  let m2 := page.scriptUrls.foldl (fun acc u => addIfValid acc (absolutize base u)) m1
  let m3 := page.textUrls.foldl (fun acc u => addIfValid acc (absolutize base u)) m2
  let m4 := page.styleUrls.foldl (fun acc u => addIfValid acc (absolutize base u)) m3
  let m5 := constructed.foldl addIfNew m4
  m5.filter is_valid_image_url

/-- The cap of lines 297-302: `max_images = 100`; when exceeded, keep
`filtered_images[:50] + filtered_images[-50:]`. -/
def limit_images (l : List Str) : List Str :=
  if l.length > 100 then l.take 50 ++ l.drop (l.length - 50) else l

/-- Model: `ManhwaScraper.extract_images_from_chapter` (lines 210-305) applied to a
parsed page. -/
def extract_images_pipeline (base : Str) (page : ChapterPage) (constructed : List Str) :
    List Str :=
  limit_images (extract_images_precap base page constructed)

/-- Model: `ManhwaScraper.extract_images_from_chapter` reading its page through
`get_soup` (lines 212-214): absence of a page yields an empty list. -/
def extract_images_from_chapter (fetch : Str → Except Str ChapterPage)
    (base chapterUrl : Str) (constructed : List Str) : List Str :=
  match get_soup (fetch chapterUrl) with
  | none => []
  | some page => extract_images_pipeline base page constructed

/-- The result-collection loop of `ManhwaScraper.validate_image_urls`
(lines 475-488).  Futures are submitted in list order; `order` lists the
indices of the submitted URLs in the order their probes complete; `ok` is
each probe's outcome; `flag k` is the value of `self.interrupted` observed
after the `k`-th completed result.  Valid URLs are appended in completion
order. -/
def validate_loop (urls : List Str) (ok : Str → Bool) (flag : Nat → Bool) :
    List Nat → Nat → List Str → List Str
  | [], _, valid => valid
  | i :: rest, completed, valid =>
    let valid' := match urls[i]? with
      | some u => if ok u then valid ++ [u] else valid
      | none => valid
    if flag (completed + 1) then valid'
    else validate_loop urls ok flag rest (completed + 1) valid'

/-- Model: `ManhwaScraper.validate_image_urls` (lines 463-488). -/
def validate_image_urls (urls : List Str) (ok : Str → Bool) (flag : Nat → Bool)
    (order : List Nat) : List Str :=
  validate_loop urls ok flag order 0 []

/-- Model: `list(enumerate(valid_images, 1))` (line 531): 1-based page ordinals are
attached to the URLs before any task is submitted to the pool. -/
def assign_page_indices (validImages : List Str) : List (Nat × Str) :=
  validImages.enum.map (fun p => (p.1 + 1, p.2))

/-- The multiset of tasks actually collected by the `as_completed` loop of
`download_chapter` (lines 536-543) when the pool completes them in the order
given by `order` (a permutation of the submission indices). -/
def executed_tasks (validImages : List Str) (order : List Nat) : List (Nat × Str) :=
  order.filterMap (fun i => (assign_page_indices validImages)[i]?)

/-- Model: `ManhwaScraper._download_one` (lines 490-500), with the filesystem
modelled as the list of existing paths and the chain of outcomes of
successive `download_image` calls for this task given by `fetchOk`
(1-indexed).  Returns the task's result and the number of `download_image`
calls it performs: if the destination exists the task succeeds without any
fetch, otherwise exactly one fetch is attempted and its outcome is the
task's result. -/
def download_one (fs : List Str) (chapterDir : Str) (i : Nat) (_url : Str)
    (fetchOk : Nat → Bool) : Bool × Nat :=
  if chapterDir ++ strOf "/" ++ pageFilename i ∈ fs then (true, 0)
  else (fetchOk 1, 1)

/-- The task-aggregation part of `ManhwaScraper.download_chapter`
(lines 511-546) in the `validate_urls = False` configuration (the default:
`valid_images = images`, line 521) with the interruption flag unset
throughout the run.  Returns the chapter result
(`success_count > 0`), the success count, and the total number of
`download_image` calls. -/
def download_chapter (fs : List Str) (chapterDir : Str) (images : List Str)
    (fetchOk : Str → Nat → Bool) : Bool × Nat × Nat :=
  if images.isEmpty then (false, 0, 0)
  else
    let results := (assign_page_indices images).map
      (fun p => download_one fs chapterDir p.1 p.2 (fetchOk p.2))
    let success := (results.filter (fun r => r.1)).length
    let fetches := (results.map (fun r => r.2)).sum
    (decide (success > 0), success, fetches)

/-- The chapter loop of `ManhwaScraper.download_manhwa` (lines 558-564):
the body runs `download_chapter` for every chapter of the series in order
and sleeps between chapters.  The loop contains no check of
`self.interrupted`, so the flag timeline (`flag k` = the flag's value when
iteration `k` would begin) has no effect on which chapter iterations are
started. -/
def download_manhwa_started (flag : Nat → Bool) (chapters : List Chapter) : List Chapter :=
  let _ := flag
  chapters

/-- The series loop of `ManhwaScraper.download_all` (lines 576-585): at the
top of each iteration `self.interrupted` is observed and, if set, the loop
breaks; otherwise the series is processed.  `flag k` is the value observed
at the top of iteration `k`; the returned list holds the series whose
iterations were started. -/
def download_all_started {α : Type} (flag : Nat → Bool) : List α → Nat → List α
  | [], _ => []
  | s :: ss, k => if flag k then [] else s :: download_all_started flag ss (k + 1)

end ManhwaScraper

namespace ToonGodScraper

/-- Model: `ToonGodScraper.sanitize` (toongod_scraper.py lines 82-83):
`re.sub(r'[<>:"/\\|?*]', '_', s).strip()` - the same character map as
`ManhwaScraper.sanitize_filename` followed by a whitespace strip. -/
def sanitize (s : Str) : Str := pyStrip (s.map ManhwaScraper.sanitizeChar)

/-- Does `r'/webtoon/[^/]+/chapter-[^/]+/?$'` match at the head of `s`
(requiring the match to run to the end of the string)?  Both `[^/]+` runs are
forced: the first ends at the first slash (the next literal is `/`), the
second is maximal and must be followed by the end or by a single final
slash. -/
def tgHrefMatchAt (s : Str) : Bool :=
  if strStarts s (strOf "/webtoon/") then
    let rest := s.drop 9
    let seg := rest.takeWhile (fun c => c ≠ '/')
    if seg.isEmpty then false
    else
      let rest2 := rest.drop seg.length
      if strStarts rest2 (strOf "/chapter-") then
        let run := (rest2.drop 9).takeWhile (fun c => c ≠ '/')
        if run.isEmpty then false
        else
          let tl := (rest2.drop 9).drop run.length
          tl.isEmpty || tl = ['/']
      else false
  else false

/-- Model: `re.search(r'/webtoon/[^/]+/chapter-[^/]+/?$', href)` (line 446). -/
def tgHrefPat : Str → Bool
  | [] => false
  | c :: rest => tgHrefMatchAt (c :: rest) || tgHrefPat rest

/-- Model: `re.search(r'chapter-([\w-]+)', href)` (line 450): the captured run of
word characters and hyphens after the leftmost viable `chapter-`. -/
def findChapterKey : Str → Option Str
  | [] => none
  | c :: rest =>
    if strStarts (c :: rest) (strOf "chapter-") then
      let run := ((c :: rest).drop 8).takeWhile isWordChar
      if run.isEmpty then findChapterKey rest else some run
    else findChapterKey rest

/-- The raw chapter records built by the static-anchor fallback of
`ToonGodScraper.extract_chapters` (lines 442-452). -/
def make_chapters (base : Str) (anchors : List (Str × Str)) : List Chapter :=
  anchors.filterMap (fun a =>
    if !tgHrefPat a.1 then none
    else
      let full := if strStarts a.1 (strOf "http") then a.1 else urljoin base a.1
      let numKey := (findChapterKey a.1).getD a.2
      some ⟨numKey, a.2, full⟩)

/-- The `sort_key` closure of lines 461-470: `-1` for a number containing
`prologue`, else the leading integer of the first digit run, else `10**9`. -/
def sort_key (number : Str) : Int :=
  let s := strLower number
  if strHasSub s (strOf "prologue") then -1
  else match firstDigitRun s with
    | some d => Int.ofNat (intOfDigits d)
    | none => 1000000000

/-- The static-anchor fallback of `ToonGodScraper.extract_chapters`
(lines 438-473): build records, deduplicate by URL keeping discovery order
(lines 453-459), then stable-sort by `sort_key` (line 471; Python `sorted`
is stable and is modelled by the stable `List.insertionSort`). -/
def extract_chapters_pipeline (base : Str) (anchors : List (Str × Str)) : List Chapter :=
  let uniq := dedupByKey (fun c => c.url) [] (make_chapters base anchors)
  @List.insertionSort Chapter (fun a b => sort_key a.number ≤ sort_key b.number)
    (fun a b => Int.decLe (sort_key a.number) (sort_key b.number)) uniq

/-- Model: `ToonGodScraper._is_valid_image_url` (lines 475-488); same conjuncts as
the Manhwa variant with the scheme test before the extension test. -/
def is_valid_image_url (url : Str) : Bool :=
  if url.isEmpty then false
  else if strStarts url (strOf "blob:") || strStarts url (strOf "data:") then false
  else if !strStarts url (strOf "http") then false
  else if !(imageExtensions.any (fun ext => strHasSub (strLower url) ext)) then false
  else !(netloc url).isEmpty

/-- A chapter page as seen by `ToonGodScraper.extract_images_from_chapter`:
the per-tag attribute candidates within the reading container (values of
`data-src`, `data-original`, `data-lazy-src`, `src` in that order) and the
absolute-URL regex harvest over the whole page text (lines 505-513). -/
structure ChapterPage where
  imgTags : List (List (Option Str))
  textUrls : List Str

/-- Model: `ToonGodScraper.extract_images_from_chapter` (lines 490-526) applied to a
parsed page: collect valid candidates from the container's image tags and the
page-text scan, deduplicate preserving order, then truncate to the first 200
when more were found. -/
def extract_images_precap (page : ChapterPage) : List Str :=
  let m1 := page.imgTags.foldl (fun acc tag =>
    match ManhwaScraper.firstValidAttr is_valid_image_url tag with
    | some v => acc ++ [v]
    | none => acc) []
  let m2 := page.textUrls.foldl (fun acc u =>
    if is_valid_image_url u then acc ++ [u] else acc) m1
  dedupByKey id [] m2

/-- The cap of lines 521-524: `if len(ordered) > 200: ordered = ordered[:200]`. -/
def limit_images (l : List Str) : List Str :=
  if l.length > 200 then l.take 200 else l

/-- Model: `ToonGodScraper.extract_images_from_chapter` (lines 490-526). -/
def extract_images_pipeline (page : ChapterPage) : List Str :=
  limit_images (extract_images_precap page)

/-- Model: `ToonGodScraper.validate_urls_parallel` (lines 597-610): futures are
submitted in list order and each completed probe's URL is appended to
`valid` in completion order (`order` lists submitted indices in completion
order). -/
def validate_urls_parallel (urls : List Str) (ok : Str → Bool) (order : List Nat) :
    List Str :=
  order.filterMap (fun i => match urls[i]? with
    | some u => if ok u then some u else none
    | none => none)

/-- Model: `download_one` inside `ToonGodScraper.download_chapter` (lines 634-644):
skip when the destination exists; otherwise call `download_image` and, on
failure, sleep 0.3 s and call it exactly once more.  `fetchOk` gives the
outcome of the task's successive `download_image` calls (1-indexed); the
returned pair is the task's result and the number of calls performed. -/
def download_one (fs : List Str) (chapterDir : Str) (i : Nat) (_url : Str)
    (fetchOk : Nat → Bool) : Bool × Nat :=
  if chapterDir ++ strOf "/" ++ pageFilename i ∈ fs then (true, 0)
  else if fetchOk 1 then (true, 1)
  else (fetchOk 2, 2)

/-- The task-aggregation part of `ToonGodScraper.download_chapter`
(lines 618-652) in the `validate_urls = False` configuration.  Returns the
chapter result (`success > 0`), the success count, and the total number of
`download_image` calls. -/
def download_chapter (fs : List Str) (chapterDir : Str) (imgs : List Str)
    (fetchOk : Str → Nat → Bool) : Bool × Nat × Nat :=
  if imgs.isEmpty then (false, 0, 0)
  else
    let results := (ManhwaScraper.assign_page_indices imgs).map
      (fun p => download_one fs chapterDir p.1 p.2 (fetchOk p.2))
    let success := (results.filter (fun r => r.1)).length
    let fetches := (results.map (fun r => r.2)).sum
    (decide (success > 0), success, fetches)

end ToonGodScraper

/-! ## General lemmas about the embedded combinators -/

/-- Deduplication yields a sublist of its input. -/
theorem dedupByKey_sublist {α β : Type} [DecidableEq β] (key : α → β) :
    ∀ (seen : List β) (l : List α), List.Sublist (dedupByKey key seen l) l
  | _, [] => List.Sublist.refl _
  | seen, x :: rest => by
    unfold dedupByKey
    split
    · exact (dedupByKey_sublist key seen rest).cons x
    · exact (dedupByKey_sublist key (key x :: seen) rest).cons₂ x

/-- An element of the deduplicated list is an element of the input. -/
theorem mem_of_mem_dedupByKey {α β : Type} [DecidableEq β] {key : α → β}
    {seen : List β} {l : List α} {x : α} (h : x ∈ dedupByKey key seen l) : x ∈ l :=
  (dedupByKey_sublist key seen l).subset h

/-- Every element retained by `dedupByKey` has an unseen key, and is the first
element of the input carrying its key. -/
theorem dedupByKey_head {α β : Type} [DecidableEq β] (key : α → β) :
    ∀ (seen : List β) (l : List α) (c : α), c ∈ dedupByKey key seen l →
      key c ∉ seen ∧ (l.filter (fun d => decide (key d = key c))).head? = some c
  | _, [], c => by intro h; cases h
  | seen, x :: rest, c => by
    intro h
    unfold dedupByKey at h
    by_cases hx : key x ∈ seen
    · rw [if_pos hx] at h
      obtain ⟨hns, hh⟩ := dedupByKey_head key seen rest c h
      have hne : ¬(key x = key c) := fun he => hns (he ▸ hx)
      exact ⟨hns, by simp [List.filter_cons, hne, hh]⟩
    · rw [if_neg hx] at h
      rcases List.mem_cons.mp h with h | h
      · subst h
        exact ⟨hx, by simp [List.filter_cons]⟩
      · obtain ⟨hns, hh⟩ := dedupByKey_head key (key x :: seen) rest c h
        have hne : ¬(key x = key c) := fun he => hns (by simp [he])
        exact ⟨fun hc => hns (List.mem_cons_of_mem _ hc), by simp [List.filter_cons, hne, hh]⟩

/-- The keys of the deduplicated list are pairwise distinct, avoid `seen`, and
cover every input key not already in `seen`. -/
theorem dedupByKey_keys {α β : Type} [DecidableEq β] (key : α → β) :
    ∀ (seen : List β) (l : List α),
      ((dedupByKey key seen l).map key).Nodup ∧
      (∀ b ∈ (dedupByKey key seen l).map key, b ∉ seen) ∧
      (∀ b ∈ l.map key, b ∈ seen ∨ b ∈ (dedupByKey key seen l).map key)
  | _, [] => by simp [dedupByKey]
  | seen, x :: rest => by
    by_cases hx : key x ∈ seen
    · obtain ⟨h1, h2, h3⟩ := dedupByKey_keys key seen rest
      refine ⟨by simpa [dedupByKey, hx] using h1, by simpa [dedupByKey, hx] using h2, ?_⟩
      intro b hb
      rw [List.map_cons] at hb
      rcases List.mem_cons.mp hb with hb | hb
      · exact Or.inl (hb ▸ hx)
      · simpa [dedupByKey, hx] using h3 b hb
    · obtain ⟨h1, h2, h3⟩ := dedupByKey_keys key (key x :: seen) rest
      have hmap : (dedupByKey key seen (x :: rest)).map key =
          key x :: (dedupByKey key (key x :: seen) rest).map key := by
        simp [dedupByKey, hx]
      refine ⟨?_, ?_, ?_⟩
      · rw [hmap, List.nodup_cons]
        exact ⟨fun hc => (h2 _ hc) (List.mem_cons_self _ _), h1⟩
      · intro b hb
        rw [hmap] at hb
        rcases List.mem_cons.mp hb with hb | hb
        · exact hb ▸ hx
        · exact fun hs => (h2 b hb) (List.mem_cons_of_mem _ hs)
      · intro b hb
        rw [hmap]
        rw [List.map_cons] at hb
        rcases List.mem_cons.mp hb with hb | hb
        · exact Or.inr (hb ▸ List.mem_cons_self _ _)
        · rcases h3 b hb with hs | hs
          · rcases List.mem_cons.mp hs with hs | hs
            · exact Or.inr (hs ▸ List.mem_cons_self _ _)
            · exact Or.inl hs
          · exact Or.inr (List.mem_cons_of_mem _ hs)

/-- A stable sort does not reorder the elements of a class on which the
relation always holds: filtering the sorted list by such a class gives the
same list as filtering the input. -/
theorem filter_insertionSort_of_class {α : Type} (r : α → α → Prop) [DecidableRel r]
    (p : α → Bool) (l : List α)
    (hp : ∀ a ∈ l, ∀ b ∈ l, p a = true → p b = true → r a b) :
    (List.insertionSort r l).filter p = l.filter p := by
  have h1 : (l.filter p).Pairwise r :=
    List.pairwise_of_forall_mem_list
      (fun a ha b hb => hp a (List.mem_of_mem_filter ha) b (List.mem_of_mem_filter hb)
        (List.of_mem_filter ha) (List.of_mem_filter hb))
  have h2 : List.Sublist (l.filter p) (List.insertionSort r l) :=
    List.sublist_insertionSort h1 (List.filter_sublist l)
  have h3 : List.Sublist (l.filter p) ((List.insertionSort r l).filter p) := by
    have h4 := h2.filter p
    rwa [List.filter_eq_self.mpr (fun a ha => List.of_mem_filter ha)] at h4
  have h5 : ((List.insertionSort r l).filter p).length = (l.filter p).length :=
    ((List.perm_insertionSort r l).filter p).length_eq
  exact (h3.eq_of_length h5.symm).symm

/-- Collecting `l[i]?` over `range l.length` recovers `l`. -/
theorem filterMap_getElem_range {α : Type} : ∀ (l : List α),
    (List.range l.length).filterMap (fun i => l[i]?) = l
  | [] => rfl
  | a :: l => by
    have hcomp : ∀ i : Nat, (a :: l)[Nat.succ i]? = l[i]? := fun i => by
      simp [List.getElem?_cons_succ]
    rw [List.length_cons, List.range_succ_eq_map, List.filterMap_cons]
    simp only [List.getElem?_cons_zero, List.filterMap_map, Function.comp_def, hcomp]
    rw [filterMap_getElem_range l]

/-- Collecting `l[i]?` along any permutation of the index range yields a
permutation of `l`. -/
theorem filterMap_getElem_perm {α : Type} (l : List α) (order : List Nat)
    (h : order.Perm (List.range l.length)) :
    (order.filterMap (fun i => l[i]?)).Perm l := by
  have h1 := h.filterMap (fun i => l[i]?)
  rwa [filterMap_getElem_range l] at h1

/-- The last element of a list is a member of any `drop` that is not past the
end. -/
theorem mem_drop_of_getLast? {α : Type} :
    ∀ (l : List α) (k : Nat) (x : α), k < l.length → l.getLast? = some x →
      x ∈ l.drop k
  | [], k, x => by intro h; exact absurd h (Nat.not_lt_zero k)
  | a :: t, 0, x => by
    intro _ h
    simpa using List.mem_of_getLast?_eq_some h
  | a :: t, k + 1, x => by
    intro hk hl
    match t, hk, hl with
    | b :: t', hk, hl =>
      have hk' : k < (b :: t').length := Nat.lt_of_succ_lt_succ hk
      have hl' : (b :: t').getLast? = some x := by rwa [List.getLast?_cons_cons] at hl
      simpa using mem_drop_of_getLast? (b :: t') k x hk' hl'

/-- Membership in the Manhwa cap output implies membership in its input. -/
theorem mem_of_mem_limit_m {u : Str} {l : List Str}
    (h : u ∈ ManhwaScraper.limit_images l) : u ∈ l := by
  unfold ManhwaScraper.limit_images at h
  split at h
  · rcases List.mem_append.mp h with h | h
    · exact (List.take_sublist _ _).subset h
    · exact (List.drop_sublist _ _).subset h
  · exact h

/-- Membership in the ToonGod cap output implies membership in its input. -/
theorem mem_of_mem_limit_tg {u : Str} {l : List Str}
    (h : u ∈ ToonGodScraper.limit_images l) : u ∈ l := by
  unfold ToonGodScraper.limit_images at h
  split at h
  · exact (List.take_sublist _ _).subset h
  · exact h

/-- The attribute loop only ever returns a value accepted by `valid`. -/
theorem firstValidAttr_valid {valid : Str → Bool} {tag : List (Option Str)} {v : Str}
    (h : ManhwaScraper.firstValidAttr valid tag = some v) : valid v = true := by
  obtain ⟨a, _, hf⟩ := List.exists_of_findSome?_eq_some h
  match a with
  | none => simp at hf
  | some x =>
    dsimp only at hf
    by_cases hv : valid x = true
    · rw [if_pos hv] at hf
      cases hf
      exact hv
    · rw [if_neg hv] at hf
      cases hf

/-- Every URL collected by the image-tag loop of
`ToonGodScraper.extract_images_from_chapter` is valid. -/
theorem tg_fold_img_valid :
    ∀ (tags : List (List (Option Str))) (acc : List Str),
      (∀ x ∈ acc, ToonGodScraper.is_valid_image_url x = true) →
      ∀ x ∈ tags.foldl (fun acc tag =>
          match ManhwaScraper.firstValidAttr ToonGodScraper.is_valid_image_url tag with
          | some v => acc ++ [v]
          | none => acc) acc,
        ToonGodScraper.is_valid_image_url x = true
  | [], acc, hacc => by simpa using hacc
  | tag :: tags, acc, hacc => by
    rw [List.foldl_cons]
    refine tg_fold_img_valid tags _ ?_
    cases hfv : ManhwaScraper.firstValidAttr ToonGodScraper.is_valid_image_url tag with
    | none => simpa [hfv] using hacc
    | some v =>
      intro x hx
      simp only [hfv, List.mem_append, List.mem_singleton] at hx
      rcases hx with hx | hx
      · exact hacc x hx
      · exact hx ▸ firstValidAttr_valid hfv

/-- Every URL collected by the page-text loop of
`ToonGodScraper.extract_images_from_chapter` is valid. -/
theorem tg_fold_text_valid :
    ∀ (urls : List Str) (acc : List Str),
      (∀ x ∈ acc, ToonGodScraper.is_valid_image_url x = true) →
      ∀ x ∈ urls.foldl (fun acc u =>
          if ToonGodScraper.is_valid_image_url u then acc ++ [u] else acc) acc,
        ToonGodScraper.is_valid_image_url x = true
  | [], acc, hacc => by simpa using hacc
  | u :: urls, acc, hacc => by
    rw [List.foldl_cons]
    refine tg_fold_text_valid urls _ ?_
    by_cases hu : ToonGodScraper.is_valid_image_url u = true
    · intro x hx
      simp only [hu, if_true, List.mem_append, List.mem_singleton] at hx
      rcases hx with hx | hx
      · exact hacc x hx
      · exact hx ▸ hu
    · intro x hx
      simp only [hu, if_false, Bool.false_eq_true] at hx
      exact hacc x hx

/-- Every element of the ToonGod pre-cap candidate list is valid. -/
theorem tg_precap_valid {page : ToonGodScraper.ChapterPage} {u : Str}
    (h : u ∈ ToonGodScraper.extract_images_precap page) :
    ToonGodScraper.is_valid_image_url u = true := by
  unfold ToonGodScraper.extract_images_precap at h
  have h2 := mem_of_mem_dedupByKey h
  exact tg_fold_text_valid page.textUrls _
    (tg_fold_img_valid page.imgTags [] (by simp)) u h2

/-- Every element of the Manhwa pre-cap candidate list is valid (the final
filter of lines 292-295 re-checks every collected URL). -/
theorem manhwa_precap_valid {base : Str} {page : ManhwaScraper.ChapterPage}
    {constructed : List Str} {u : Str}
    (h : u ∈ ManhwaScraper.extract_images_precap base page constructed) :
    ManhwaScraper.is_valid_image_url u = true := by
  unfold ManhwaScraper.extract_images_precap at h
  exact List.of_mem_filter h

/-- Unfolding of `ManhwaScraper._is_valid_image_url` into the inclusion
predicate's conjuncts. -/
theorem is_valid_spec_m {u : Str} (h : ManhwaScraper.is_valid_image_url u = true) :
    strStarts u (strOf "blob:") = false ∧ strStarts u (strOf "data:") = false ∧
    strStarts u (strOf "http") = true ∧
    imageExtensions.any (fun ext => strHasSub (strLower u) ext) = true ∧
    netloc u ≠ [] := by
  unfold ManhwaScraper.is_valid_image_url at h
  split_ifs at h with h1 h2 h3 h4
  simp only [Bool.or_eq_true, not_or] at h2
  simp at h3 h4
  refine ⟨by simpa using h2.1, by simpa using h2.2, h4, List.any_eq_true.mpr h3, ?_⟩
  simpa [List.isEmpty_iff] using h

/-- Unfolding of `ToonGodScraper._is_valid_image_url` into the inclusion
predicate's conjuncts. -/
theorem is_valid_spec_tg {u : Str} (h : ToonGodScraper.is_valid_image_url u = true) :
    strStarts u (strOf "blob:") = false ∧ strStarts u (strOf "data:") = false ∧
    strStarts u (strOf "http") = true ∧
    imageExtensions.any (fun ext => strHasSub (strLower u) ext) = true ∧
    netloc u ≠ [] := by
  unfold ToonGodScraper.is_valid_image_url at h
  split_ifs at h with h1 h2 h3 h4
  simp only [Bool.or_eq_true, not_or] at h2
  simp at h3 h4
  refine ⟨by simpa using h2.1, by simpa using h2.2, h3, List.any_eq_true.mpr h4, ?_⟩
  simpa [List.isEmpty_iff] using h

/-! ## Claim theorems -/

/-- C1: the claim says the controller observes the interruption flag at the
top of each chapter iteration and, once it is set, starts no further
chapters.  The chapter loop of `ManhwaScraper.download_manhwa`
(lines 559-564) contains no check of the flag: with the flag already set at
every observation point, both chapter iterations of a two-chapter series
still begin, while the series loop of `download_all` (lines 576-579, which
does observe the flag) starts nothing.  This contradicts the claim and the
interrupt handler's own log message ("Finishing current chapter and
exiting..."). -/
theorem c1_chapter_loop_ignores_interrupt :
    ManhwaScraper.download_manhwa_started (fun _ => true)
      [⟨strOf "1", strOf "Chapter 1", strOf "http://b/manhwa/a/chapter-1/"⟩,
       ⟨strOf "2", strOf "Chapter 2", strOf "http://b/manhwa/a/chapter-2/"⟩] =
      [⟨strOf "1", strOf "Chapter 1", strOf "http://b/manhwa/a/chapter-1/"⟩,
       ⟨strOf "2", strOf "Chapter 2", strOf "http://b/manhwa/a/chapter-2/"⟩] ∧
    ManhwaScraper.download_all_started (fun _ => true)
      [(strOf "Only You", strOf "http://b/manhwa/only-you/")] 0 = [] :=
  ⟨rfl, rfl⟩

/-- C4 counterexample: for a Manhwa task whose destination is missing and
whose fetch oracle fails on the first attempt but would succeed on a second,
`_download_one` performs exactly one `download_image` call and declares the
task failed - there is no task-layer retry in `ManhwaScraper`, contradicting
the claim that every task retries once before failing. -/
theorem c4_counterexample :
    ManhwaScraper.download_one [] (strOf "d") 1 (strOf "http://h/x.jpg")
      (fun k => decide (k = 2)) = (false, 1) ∧
    ((false, 1) : Bool × Nat).2 ≠ 2 := by
  exact ⟨by decide, by decide⟩

/-- C4 amended: when the destination file is absent, `ToonGodScraper`'s task
(`download_one`, toongod_scraper.py lines 634-644) fetches once and, on
failure, retries exactly once (after the fixed 0.3 s sleep, not modelled)
before the task's result is fixed; `ManhwaScraper._download_one`
(manhwa_scraper.py lines 490-500) performs a single fetch with no task-layer
retry. -/
theorem c4_task_retry_amended (fs : List Str) (dir u : Str) (i : Nat) (o : Nat → Bool)
    (h : dir ++ strOf "/" ++ pageFilename i ∉ fs) :
    ToonGodScraper.download_one fs dir i u o =
      (if o 1 then (true, 1) else (o 2, 2)) ∧
    ManhwaScraper.download_one fs dir i u o = (o 1, 1) := by
  unfold ToonGodScraper.download_one ManhwaScraper.download_one
  rw [if_neg h, if_neg h]
  refine ⟨?_, rfl⟩
  by_cases h1 : o 1 = true
  · simp [h1]
  · simp [h1]

/-- Witness for `c4_task_retry_amended` at a concrete input: destination
missing, first fetch fails, second succeeds - the ToonGod task succeeds
after two calls, the Manhwa task fails after one. -/
theorem c4_task_retry_amended_witness :
    (strOf "d" ++ strOf "/" ++ pageFilename 1 ∉ ([] : List Str)) ∧
    ToonGodScraper.download_one [] (strOf "d") 1 (strOf "u")
      (fun k => decide (k = 2)) = (true, 2) ∧
    ManhwaScraper.download_one [] (strOf "d") 1 (strOf "u")
      (fun k => decide (k = 2)) = (false, 1) := by
  refine ⟨by decide, ?_, ?_⟩
  · have h := (c4_task_retry_amended [] (strOf "d") (strOf "u") 1
      (fun k => decide (k = 2)) (by decide)).1
    simpa using h
  · exact (c4_task_retry_amended [] (strOf "d") (strOf "u") 1
      (fun k => decide (k = 2)) (by decide)).2

/-- C7: re-running `download_chapter` against a directory in which every
destination `page_NNN.jpg` already exists performs zero `download_image`
calls, counts every task as succeeded, and reports chapter success - for
both scrapers, whatever the network oracles would have answered. -/
theorem c7_idempotent_rerun (fs : List Str) (dir : Str) (images : List Str)
    (fOkM fOkT : Str → Nat → Bool) (hne : images ≠ [])
    (hex : ∀ p ∈ ManhwaScraper.assign_page_indices images,
      dir ++ strOf "/" ++ pageFilename p.1 ∈ fs) :
    ManhwaScraper.download_chapter fs dir images fOkM = (true, images.length, 0) ∧
    ToonGodScraper.download_chapter fs dir images fOkT = (true, images.length, 0) := by
  have hemp : images.isEmpty = false := by simpa [List.isEmpty_iff] using hne
  have hlen : (ManhwaScraper.assign_page_indices images).length = images.length := by
    simp [ManhwaScraper.assign_page_indices]
  have hpos : 0 < images.length := List.length_pos.mpr hne
  constructor
  · unfold ManhwaScraper.download_chapter
    rw [hemp]
    have hmap : (ManhwaScraper.assign_page_indices images).map
        (fun p => ManhwaScraper.download_one fs dir p.1 p.2 (fOkM p.2)) =
        List.replicate images.length (true, 0) := by
      rw [List.map_congr_left (g := fun _ => ((true : Bool), (0 : Nat)))
        (fun p hp => by unfold ManhwaScraper.download_one; rw [if_pos (hex p hp)])]
      rw [List.map_const', hlen]
    simp [hmap, List.filter_replicate, hpos]
  · unfold ToonGodScraper.download_chapter
    rw [hemp]
    have hmap : (ManhwaScraper.assign_page_indices images).map
        (fun p => ToonGodScraper.download_one fs dir p.1 p.2 (fOkT p.2)) =
        List.replicate images.length (true, 0) := by
      rw [List.map_congr_left (g := fun _ => ((true : Bool), (0 : Nat)))
        (fun p hp => by unfold ToonGodScraper.download_one; rw [if_pos (hex p hp)])]
      rw [List.map_const', hlen]
    simp [hmap, List.filter_replicate, hpos]

/-- Witness for `c7_idempotent_rerun`: one image whose destination
`d/page_001.jpg` exists; both chapter runs report full success with zero
fetches even though the oracles would fail every fetch. -/
theorem c7_idempotent_rerun_witness :
    (([strOf "u"] : List Str) ≠ [] ∧
      ∀ p ∈ ManhwaScraper.assign_page_indices [strOf "u"],
        strOf "d" ++ strOf "/" ++ pageFilename p.1 ∈ [strOf "d/page_001.jpg"]) ∧
    ManhwaScraper.download_chapter [strOf "d/page_001.jpg"] (strOf "d") [strOf "u"]
      (fun _ _ => false) = (true, 1, 0) ∧
    ToonGodScraper.download_chapter [strOf "d/page_001.jpg"] (strOf "d") [strOf "u"]
      (fun _ _ => false) = (true, 1, 0) := by
  refine ⟨⟨by decide, by decide⟩, ?_⟩
  have h := c7_idempotent_rerun [strOf "d/page_001.jpg"] (strOf "d") [strOf "u"]
    (fun _ _ => false) (fun _ _ => false) (by decide) (by decide)
  simpa using h

/-- C9: a failed page fetch never raises to callers: `get_soup` turns the
transport error into a null page, and both `extract_images_from_chapter` and
`extract_chapters` then return an empty list. -/
theorem c9_fetch_failure_yields_empty
    (fetchImgs : Str → Except Str ManhwaScraper.ChapterPage)
    (fetchList : Str → Except Str (List (Str × Str)))
    (base url : Str) (constructed : List Str) (e : Str)
    (hImgs : fetchImgs url = .error e) (hList : fetchList url = .error e) :
    ManhwaScraper.get_soup (fetchImgs url) = none ∧
    ManhwaScraper.extract_images_from_chapter fetchImgs base url constructed = [] ∧
    ManhwaScraper.extract_chapters fetchList base url = [] := by
  refine ⟨?_, ?_, ?_⟩ <;>
    simp [ManhwaScraper.get_soup, ManhwaScraper.extract_images_from_chapter,
      ManhwaScraper.extract_chapters, hImgs, hList]

/-- Witness for `c9_fetch_failure_yields_empty`: a transport that always
fails with `timeout`. -/
theorem c9_fetch_failure_yields_empty_witness :
    ((fun _ : Str => (Except.error (strOf "timeout") :
        Except Str ManhwaScraper.ChapterPage)) (strOf "u") =
      Except.error (strOf "timeout")) ∧
    ManhwaScraper.get_soup ((fun _ : Str =>
      (Except.error (strOf "timeout") : Except Str ManhwaScraper.ChapterPage))
        (strOf "u")) = none ∧
    ManhwaScraper.extract_images_from_chapter
      (fun _ => .error (strOf "timeout")) (strOf "b") (strOf "u") [] = [] ∧
    ManhwaScraper.extract_chapters
      (fun _ => .error (strOf "timeout")) (strOf "b") (strOf "u") = [] := by
  have h := c9_fetch_failure_yields_empty
    (fun _ => .error (strOf "timeout")) (fun _ => .error (strOf "timeout"))
    (strOf "b") (strOf "u") [] (strOf "timeout") rfl rfl
  exact ⟨rfl, h.1, h.2.1, h.2.2⟩

/-- C10 counterexample: the claim says the sanitizer leaves every
non-special character unchanged, but `ToonGodScraper.sanitize` additionally
strips leading and trailing whitespace: on `" a "` it returns `"a"`, not
`" a "`. -/
theorem c10_counterexample :
    ToonGodScraper.sanitize (strOf " a ") = strOf "a" ∧
    strOf "a" ≠ strOf " a " := by
  exact ⟨by decide, by decide⟩

/-- C10 amended: `ManhwaScraper.sanitize_filename` is exactly the
character-wise map replacing `< > : " / \ | ? *` by `_`;
`ToonGodScraper.sanitize` is that map followed by a whitespace strip.
Consequently no character of either sanitizer's output is a path separator,
so a sanitized series title or chapter label cannot introduce extra
directory levels. -/
theorem c10_sanitize_amended (s : Str) :
    ManhwaScraper.sanitize_filename s = s.map ManhwaScraper.sanitizeChar ∧
    ToonGodScraper.sanitize s = pyStrip (ManhwaScraper.sanitize_filename s) ∧
    (∀ c ∈ ManhwaScraper.sanitize_filename s, c ≠ '/' ∧ c ≠ '\\') ∧
    (∀ c ∈ ToonGodScraper.sanitize s, c ≠ '/' ∧ c ≠ '\\') := by
  have hmap : ∀ c ∈ ManhwaScraper.sanitize_filename s, c ≠ '/' ∧ c ≠ '\\' := by
    intro c hc
    unfold ManhwaScraper.sanitize_filename at hc
    obtain ⟨a, _, rfl⟩ := List.mem_map.mp hc
    unfold ManhwaScraper.sanitizeChar
    split
    · exact ⟨by decide, by decide⟩
    · next hna =>
      constructor
      · exact fun he => hna (he ▸ (by decide : '/' ∈ ManhwaScraper.badChars))
      · exact fun he => hna (he ▸ (by decide : '\\' ∈ ManhwaScraper.badChars))
  refine ⟨rfl, rfl, hmap, ?_⟩
  intro c hc
  apply hmap
  unfold ToonGodScraper.sanitize pyStrip at hc
  rw [List.mem_reverse] at hc
  have h1 := (List.dropWhile_sublist _).subset hc
  rw [List.mem_reverse] at h1
  have h2 := (List.dropWhile_sublist _).subset h1
  simpa [ManhwaScraper.sanitize_filename] using h2

/-- Witness for `c10_sanitize_amended`: on `"a/b"` the sanitizer output
contains `'_'`, which is not a path separator. -/
theorem c10_sanitize_amended_witness :
    ('_' ∈ ManhwaScraper.sanitize_filename (strOf "a/b")) ∧
    ('_' ≠ '/' ∧ '_' ≠ '\\') :=
  ⟨by decide, (c10_sanitize_amended (strOf "a/b")).2.2.1 '_' (by decide)⟩

/-- C8: every URL returned by either scraper's image extraction - including
URLs contributed by the last-resort URL-construction source, which the final
filter re-checks - satisfies the inclusion predicate: not a `blob:`/`data:`
URI, an `http` prefix, a recognised image-extension substring, and a
non-empty authority component. -/
theorem c8_extracted_urls_valid
    (base : Str) (pageM : ManhwaScraper.ChapterPage) (constructed : List Str)
    (pageT : ToonGodScraper.ChapterPage) (u v : Str)
    (hu : u ∈ ManhwaScraper.extract_images_pipeline base pageM constructed)
    (hv : v ∈ ToonGodScraper.extract_images_pipeline pageT) :
    (strStarts u (strOf "blob:") = false ∧ strStarts u (strOf "data:") = false ∧
     strStarts u (strOf "http") = true ∧
     imageExtensions.any (fun ext => strHasSub (strLower u) ext) = true ∧
     netloc u ≠ []) ∧
    (strStarts v (strOf "blob:") = false ∧ strStarts v (strOf "data:") = false ∧
     strStarts v (strOf "http") = true ∧
     imageExtensions.any (fun ext => strHasSub (strLower v) ext) = true ∧
     netloc v ≠ []) := by
  constructor
  · have hu' : u ∈ ManhwaScraper.limit_images
        (ManhwaScraper.extract_images_precap base pageM constructed) := by
      simpa [ManhwaScraper.extract_images_pipeline] using hu
    exact is_valid_spec_m (manhwa_precap_valid (mem_of_mem_limit_m hu'))
  · have hv' : v ∈ ToonGodScraper.limit_images
        (ToonGodScraper.extract_images_precap pageT) := by
      simpa [ToonGodScraper.extract_images_pipeline] using hv
    exact is_valid_spec_tg (tg_precap_valid (mem_of_mem_limit_tg hv'))

/-- Witness for `c8_extracted_urls_valid`: concrete pages with one image tag
and one page-text match respectively. -/
theorem c8_extracted_urls_valid_witness :
    (strOf "http://h/a.jpg" ∈ ManhwaScraper.extract_images_pipeline (strOf "http://b")
      ⟨[[some (strOf "http://h/a.jpg")]], [], [], []⟩ [] ∧
     strOf "http://h/b.png" ∈ ToonGodScraper.extract_images_pipeline
      ⟨[], [strOf "http://h/b.png"]⟩) ∧
    strStarts (strOf "http://h/a.jpg") (strOf "http") = true ∧
    netloc (strOf "http://h/b.png") ≠ [] := by
  refine ⟨⟨by decide, by decide⟩, ?_, ?_⟩
  · exact (c8_extracted_urls_valid (strOf "http://b")
      ⟨[[some (strOf "http://h/a.jpg")]], [], [], []⟩ []
      ⟨[], [strOf "http://h/b.png"]⟩ (strOf "http://h/a.jpg") (strOf "http://h/b.png")
      (by decide) (by decide)).1.2.2.1
  · exact (c8_extracted_urls_valid (strOf "http://b")
      ⟨[[some (strOf "http://h/a.jpg")]], [], [], []⟩ []
      ⟨[], [strOf "http://h/b.png"]⟩ (strOf "http://h/a.jpg") (strOf "http://h/b.png")
      (by decide) (by decide)).2.2.2.2.2

/-- C5 counterexample: two anchors with distinct URLs but the same numeric
ordinal survive deduplication, so the returned ordinals are `1, 1` - sorted,
but not strictly increasing as the claim requires. -/
theorem c5_counterexample :
    ((ToonGodScraper.extract_chapters_pipeline (strOf "http://t")
      [(strOf "/webtoon/aa/chapter-1/", strOf "A"),
       (strOf "/webtoon/bb/chapter-1/", strOf "B")]).map
        (fun c => ToonGodScraper.sort_key c.number) = [1, 1]) ∧
    ¬ List.Chain' (fun a b : Chapter =>
        ToonGodScraper.sort_key a.number < ToonGodScraper.sort_key b.number)
      (ToonGodScraper.extract_chapters_pipeline (strOf "http://t")
        [(strOf "/webtoon/aa/chapter-1/", strOf "A"),
         (strOf "/webtoon/bb/chapter-1/", strOf "B")]) := by
  have hout : ToonGodScraper.extract_chapters_pipeline (strOf "http://t")
      [(strOf "/webtoon/aa/chapter-1/", strOf "A"),
       (strOf "/webtoon/bb/chapter-1/", strOf "B")] =
      [⟨strOf "1", strOf "A", strOf "http://t/webtoon/aa/chapter-1/"⟩,
       ⟨strOf "1", strOf "B", strOf "http://t/webtoon/bb/chapter-1/"⟩] := by decide
  refine ⟨by decide, ?_⟩
  rw [hout]
  intro hch
  have hk : ToonGodScraper.sort_key (strOf "1") = 1 := by decide
  have h1 := (List.chain'_cons.mp hch).1
  rw [hk] at h1
  exact absurd h1 (lt_irrefl 1)

/-- C5 amended: discovery returns the deduplicated chapter list stably
sorted by the ordinal key (ToonGod: `-1` for a `prologue` ordinal, else the
leading integer, else `10^9`; Manhwa: the integer chapter number).  The key
sequence is nondecreasing - so prologue entries come first and, whenever
every numeric ordinal value is below `10^9`, non-numeric ordinals come last
- and every equal-key class, in particular the class of all non-numeric
ordinals, keeps its discovery order.  Strict increase holds only when the
numeric ordinals are pairwise distinct. -/
theorem c5_chapter_order_amended (base : Str) (anchors : List (Str × Str)) :
    (ToonGodScraper.extract_chapters_pipeline base anchors).Pairwise
      (fun a b => ToonGodScraper.sort_key a.number ≤ ToonGodScraper.sort_key b.number) ∧
    (∀ k : Int,
      (ToonGodScraper.extract_chapters_pipeline base anchors).filter
        (fun c => decide (ToonGodScraper.sort_key c.number = k)) =
      (dedupByKey (fun c => c.url) []
        (ToonGodScraper.make_chapters base anchors)).filter
        (fun c => decide (ToonGodScraper.sort_key c.number = k))) ∧
    (ManhwaScraper.extract_chapters_pipeline base anchors).Pairwise
      (fun a b => ManhwaScraper.chapterKey a ≤ ManhwaScraper.chapterKey b) := by
  haveI hTotT : IsTotal Chapter
      (fun a b => ToonGodScraper.sort_key a.number ≤ ToonGodScraper.sort_key b.number) :=
    ⟨fun a b => Int.le_total _ _⟩
  haveI hTransT : IsTrans Chapter
      (fun a b => ToonGodScraper.sort_key a.number ≤ ToonGodScraper.sort_key b.number) :=
    ⟨fun _ _ _ hab hbc => le_trans hab hbc⟩
  haveI hTotM : IsTotal Chapter
      (fun a b => ManhwaScraper.chapterKey a ≤ ManhwaScraper.chapterKey b) :=
    ⟨fun a b => Nat.le_total _ _⟩
  haveI hTransM : IsTrans Chapter
      (fun a b => ManhwaScraper.chapterKey a ≤ ManhwaScraper.chapterKey b) :=
    ⟨fun _ _ _ hab hbc => le_trans hab hbc⟩
  refine ⟨?_, ?_, ?_⟩
  · exact List.sorted_insertionSort _ _
  · intro k
    exact filter_insertionSort_of_class _ _ _
      (fun a _ b _ ha hb => by
        have ha' := of_decide_eq_true ha
        have hb' := of_decide_eq_true hb
        rw [ha', hb'])
  · unfold ManhwaScraper.extract_chapters_pipeline
    exact (List.sorted_insertionSort
      (fun a b => ManhwaScraper.chapterKey a ≤ ManhwaScraper.chapterKey b) _).sublist
      (dedupByKey_sublist _ _ _)

/-- C6 counterexample: two anchors reference the same URL (one relative
href, one absolute), but `re.search(r'chapter-(\d+)')` extracts different
ordinals from the two hrefs (the base URL itself contains `chapter-1`), so
the sort moves the second-seen anchor first and URL-keyed deduplication
retains the second-seen title `"Second"`, not the first-seen `"First"`. -/
theorem c6_counterexample :
    ((ManhwaScraper.extract_chapters_pipeline (strOf "http://chapter-1x")
      [(strOf "/manhwa/a/chapter-5/", strOf "First"),
       (strOf "http://chapter-1x/manhwa/a/chapter-5/", strOf "Second")]).map
      (fun c => c.title) = [strOf "Second"]) ∧
    ((ManhwaScraper.make_chapters (strOf "http://chapter-1x")
      [(strOf "/manhwa/a/chapter-5/", strOf "First"),
       (strOf "http://chapter-1x/manhwa/a/chapter-5/", strOf "Second")]).map
      (fun c => (c.title, c.url)) =
      [(strOf "First", strOf "http://chapter-1x/manhwa/a/chapter-5/"),
       (strOf "Second", strOf "http://chapter-1x/manhwa/a/chapter-5/")]) := by
  exact ⟨by decide, by decide⟩

/-- C6 amended: both scrapers return exactly one Chapter per distinct URL
(URL-keyed deduplication; the URL set is preserved).  The retained Chapter
is the first-discovered one for its URL - unconditionally in
`ToonGodScraper` (dedup precedes the sort), and in `ManhwaScraper` (dedup
follows the stable sort) provided chapters sharing a URL carry the same
numeric ordinal, as is the case whenever the ordinal is determined by the
URL (e.g. the default base URL, which contains no `chapter-` digit run). -/
theorem c6_dedup_amended (base : Str) (anchors : List (Str × Str))
    (hkey : ∀ c ∈ ManhwaScraper.make_chapters base anchors,
      ∀ d ∈ ManhwaScraper.make_chapters base anchors,
        c.url = d.url → ManhwaScraper.chapterKey c = ManhwaScraper.chapterKey d) :
    ((ManhwaScraper.extract_chapters_pipeline base anchors).map (fun c => c.url)).Nodup ∧
    (∀ u : Str, u ∈ (ManhwaScraper.make_chapters base anchors).map (fun c => c.url) ↔
      u ∈ (ManhwaScraper.extract_chapters_pipeline base anchors).map (fun c => c.url)) ∧
    (∀ c ∈ ManhwaScraper.extract_chapters_pipeline base anchors,
      ((ManhwaScraper.make_chapters base anchors).filter
        (fun d => decide (d.url = c.url))).head? = some c) ∧
    ((ToonGodScraper.extract_chapters_pipeline base anchors).map (fun c => c.url)).Nodup ∧
    (∀ u : Str, u ∈ (ToonGodScraper.make_chapters base anchors).map (fun c => c.url) ↔
      u ∈ (ToonGodScraper.extract_chapters_pipeline base anchors).map (fun c => c.url)) ∧
    (∀ c ∈ ToonGodScraper.extract_chapters_pipeline base anchors,
      ((ToonGodScraper.make_chapters base anchors).filter
        (fun d => decide (d.url = c.url))).head? = some c) := by
  have hsortM : ManhwaScraper.extract_chapters_pipeline base anchors =
      dedupByKey (fun c => c.url) []
        (@List.insertionSort Chapter
          (fun a b => ManhwaScraper.chapterKey a ≤ ManhwaScraper.chapterKey b)
          (fun a b => Nat.decLe _ _) (ManhwaScraper.make_chapters base anchors)) := rfl
  have hsortT : ToonGodScraper.extract_chapters_pipeline base anchors =
      @List.insertionSort Chapter
        (fun a b => ToonGodScraper.sort_key a.number ≤ ToonGodScraper.sort_key b.number)
        (fun a b => Int.decLe _ _)
        (dedupByKey (fun c => c.url) [] (ToonGodScraper.make_chapters base anchors)) := rfl
  have hpermM : (@List.insertionSort Chapter
      (fun a b => ManhwaScraper.chapterKey a ≤ ManhwaScraper.chapterKey b)
      (fun a b => Nat.decLe _ _) (ManhwaScraper.make_chapters base anchors)).Perm
      (ManhwaScraper.make_chapters base anchors) :=
    List.perm_insertionSort _ _
  have hpermT : (ToonGodScraper.extract_chapters_pipeline base anchors).Perm
      (dedupByKey (fun c => c.url) [] (ToonGodScraper.make_chapters base anchors)) := by
    rw [hsortT]; exact List.perm_insertionSort _ _
  refine ⟨?_, ?_, ?_, ?_, ?_, ?_⟩
  · rw [hsortM]
    exact (dedupByKey_keys (fun c : Chapter => c.url) [] _).1
  · intro u
    constructor
    · intro hu
      rw [hsortM]
      have hu' : u ∈ (@List.insertionSort Chapter
          (fun a b => ManhwaScraper.chapterKey a ≤ ManhwaScraper.chapterKey b)
          (fun a b => Nat.decLe _ _) (ManhwaScraper.make_chapters base anchors)).map
          (fun c => c.url) := ((hpermM.map (fun c => c.url)).mem_iff).mpr hu
      rcases (dedupByKey_keys (fun c : Chapter => c.url) [] _).2.2 u hu' with h | h
      · cases h
      · exact h
    · intro hu
      rw [hsortM] at hu
      obtain ⟨c, hc, rfl⟩ := List.mem_map.mp hu
      have hc' := mem_of_mem_dedupByKey hc
      exact (hpermM.map (fun c => c.url)).mem_iff.mp (List.mem_map_of_mem _ hc')
  · intro c hc
    rw [hsortM] at hc
    have hh := (dedupByKey_head (fun c : Chapter => c.url) [] _ c hc).2
    have hfi : (@List.insertionSort Chapter
        (fun a b => ManhwaScraper.chapterKey a ≤ ManhwaScraper.chapterKey b)
        (fun a b => Nat.decLe _ _) (ManhwaScraper.make_chapters base anchors)).filter
        (fun d => decide (d.url = c.url)) =
        (ManhwaScraper.make_chapters base anchors).filter
        (fun d => decide (d.url = c.url)) := by
      apply filter_insertionSort_of_class
      intro a ha b hb hpa hpb
      have ha' := of_decide_eq_true hpa
      have hb' := of_decide_eq_true hpb
      exact le_of_eq (hkey a ha b hb (ha'.trans hb'.symm))
    rw [hfi] at hh
    exact hh
  · have hnd := (dedupByKey_keys (fun c : Chapter => c.url) []
      (ToonGodScraper.make_chapters base anchors)).1
    have hp := (hpermT.map (fun c : Chapter => c.url)).symm
    exact hp.nodup hnd
  · intro u
    constructor
    · intro hu
      rcases (dedupByKey_keys (fun c : Chapter => c.url) [] _).2.2 u hu with h | h
      · cases h
      · exact ((hpermT.map (fun c => c.url)).mem_iff).mpr h
    · intro hu
      obtain ⟨c, hc, rfl⟩ := List.mem_map.mp hu
      rw [hsortT] at hc
      have hc' := mem_of_mem_dedupByKey ((List.mem_insertionSort _).mp hc)
      exact List.mem_map_of_mem _ hc'
  · intro c hc
    rw [hsortT] at hc
    exact (dedupByKey_head (fun c : Chapter => c.url) [] _ c ((List.mem_insertionSort _).mp hc)).2

/-- Witness for `c6_dedup_amended`: duplicate anchors with identical hrefs
and differing titles; both scrapers keep the first-seen title. -/
theorem c6_dedup_amended_witness :
    (∀ c ∈ ManhwaScraper.make_chapters (strOf "http://b")
        [(strOf "/manhwa/a/chapter-1/", strOf "A"),
         (strOf "/manhwa/a/chapter-1/", strOf "B"),
         (strOf "/webtoon/w/chapter-2/", strOf "X"),
         (strOf "/webtoon/w/chapter-2/", strOf "Y")],
      ∀ d ∈ ManhwaScraper.make_chapters (strOf "http://b")
        [(strOf "/manhwa/a/chapter-1/", strOf "A"),
         (strOf "/manhwa/a/chapter-1/", strOf "B"),
         (strOf "/webtoon/w/chapter-2/", strOf "X"),
         (strOf "/webtoon/w/chapter-2/", strOf "Y")],
        c.url = d.url → ManhwaScraper.chapterKey c = ManhwaScraper.chapterKey d) ∧
    ((ManhwaScraper.make_chapters (strOf "http://b")
        [(strOf "/manhwa/a/chapter-1/", strOf "A"),
         (strOf "/manhwa/a/chapter-1/", strOf "B"),
         (strOf "/webtoon/w/chapter-2/", strOf "X"),
         (strOf "/webtoon/w/chapter-2/", strOf "Y")]).filter
      (fun d => decide (d.url =
        (⟨strOf "1", strOf "A", strOf "http://b/manhwa/a/chapter-1/"⟩ : Chapter).url))).head? =
      some ⟨strOf "1", strOf "A", strOf "http://b/manhwa/a/chapter-1/"⟩ ∧
    ((ToonGodScraper.make_chapters (strOf "http://b")
        [(strOf "/manhwa/a/chapter-1/", strOf "A"),
         (strOf "/manhwa/a/chapter-1/", strOf "B"),
         (strOf "/webtoon/w/chapter-2/", strOf "X"),
         (strOf "/webtoon/w/chapter-2/", strOf "Y")]).filter
      (fun d => decide (d.url =
        (⟨strOf "2", strOf "X", strOf "http://b/webtoon/w/chapter-2/"⟩ : Chapter).url))).head? =
      some ⟨strOf "2", strOf "X", strOf "http://b/webtoon/w/chapter-2/"⟩ := by
  refine ⟨by decide, ?_, ?_⟩
  · exact (c6_dedup_amended (strOf "http://b")
      [(strOf "/manhwa/a/chapter-1/", strOf "A"),
       (strOf "/manhwa/a/chapter-1/", strOf "B"),
       (strOf "/webtoon/w/chapter-2/", strOf "X"),
       (strOf "/webtoon/w/chapter-2/", strOf "Y")] (by decide)).2.2.1
      ⟨strOf "1", strOf "A", strOf "http://b/manhwa/a/chapter-1/"⟩ (by decide)
  · exact (c6_dedup_amended (strOf "http://b")
      [(strOf "/manhwa/a/chapter-1/", strOf "A"),
       (strOf "/manhwa/a/chapter-1/", strOf "B"),
       (strOf "/webtoon/w/chapter-2/", strOf "X"),
       (strOf "/webtoon/w/chapter-2/", strOf "Y")] (by decide)).2.2.2.2.2
      ⟨strOf "2", strOf "X", strOf "http://b/webtoon/w/chapter-2/"⟩ (by decide)

/-- C3 counterexample: with URL validation enabled, `validate_image_urls`
appends URLs in probe-completion order, so two runs over the same extracted
candidate list whose probes complete in different orders assign different
1-based page indices (and hence different `page_NNN.jpg` filenames) to the
same URLs. -/
theorem c3_counterexample :
    ManhwaScraper.assign_page_indices
      (ManhwaScraper.validate_image_urls
        [strOf "http://h/a.jpg", strOf "http://h/b.jpg"]
        (fun _ => true) (fun _ => false) [0, 1]) ≠
    ManhwaScraper.assign_page_indices
      (ManhwaScraper.validate_image_urls
        [strOf "http://h/a.jpg", strOf "http://h/b.jpg"]
        (fun _ => true) (fun _ => false) [1, 0]) ∧
    ([0, 1] : List Nat).Perm (List.range 2) ∧
    ([1, 0] : List Nat).Perm (List.range 2) ∧
    ToonGodScraper.validate_urls_parallel
      [strOf "http://h/a.jpg", strOf "http://h/b.jpg"] (fun _ => true) [1, 0] =
      [strOf "http://h/b.jpg", strOf "http://h/a.jpg"] := by
  refine ⟨by decide, ?_, ?_, by decide⟩
  · exact List.Perm.refl _
  · exact List.Perm.swap 0 1 []

/-- C3 amended: page ordinals are assigned by enumerating the
post-validation list before any task is dispatched, so the set of
(index, URL) pairs executed - and hence the destination filenames - is the
same for every completion order of the download pool; with validation
disabled the enumerated list is the extracted candidate list itself.  With
validation enabled the enumerated list's order follows probe completion, so
indices are only reproducible per validation outcome order. -/
theorem c3_assignment_amended (images : List Str) (order : List Nat)
    (h : order.Perm (List.range images.length)) :
    (ManhwaScraper.executed_tasks images order).Perm
      (ManhwaScraper.assign_page_indices images) ∧
    ∀ p : Nat × Str, p ∈ ManhwaScraper.executed_tasks images order ↔
      p ∈ ManhwaScraper.assign_page_indices images := by
  have hlen : (ManhwaScraper.assign_page_indices images).length = images.length := by
    simp [ManhwaScraper.assign_page_indices]
  have hperm : (order.filterMap
      (fun i => (ManhwaScraper.assign_page_indices images)[i]?)).Perm
      (ManhwaScraper.assign_page_indices images) :=
    filterMap_getElem_perm _ order (by rwa [hlen])
  exact ⟨hperm, fun p => hperm.mem_iff⟩

/-- Witness for `c3_assignment_amended`: two tasks completed in reverse
order still execute exactly the originally assigned (index, URL) pairs. -/
theorem c3_assignment_amended_witness :
    (([1, 0] : List Nat).Perm
      (List.range ([strOf "http://h/a.jpg", strOf "http://h/b.jpg"] : List Str).length)) ∧
    ((1, strOf "http://h/a.jpg") ∈
      ManhwaScraper.executed_tasks [strOf "http://h/a.jpg", strOf "http://h/b.jpg"] [1, 0] ↔
     (1, strOf "http://h/a.jpg") ∈
      ManhwaScraper.assign_page_indices [strOf "http://h/a.jpg", strOf "http://h/b.jpg"]) := by
  have hp : ([1, 0] : List Nat).Perm
      (List.range ([strOf "http://h/a.jpg", strOf "http://h/b.jpg"] : List Str).length) :=
    List.Perm.swap 0 1 []
  exact ⟨hp, (c3_assignment_amended
    [strOf "http://h/a.jpg", strOf "http://h/b.jpg"] [1, 0] hp).2 _⟩

/-- Every string begins with the empty pattern. -/
theorem strStarts_nil_pat : ∀ (s : Str), strStarts s [] = true
  | [] => rfl
  | _ :: _ => rfl

/-- A prefix match is preserved when the subject is extended on the right. -/
theorem strStarts_append_left : ∀ (p s t : Str), strStarts s p = true →
    strStarts (s ++ t) p = true
  | [], s, t => fun _ => strStarts_nil_pat (s ++ t)
  | p :: ps, [], t => by intro h; cases h
  | p :: ps, c :: s, t => by
    intro h
    rw [List.cons_append]
    show (c == p && strStarts (s ++ t) ps) = true
    have h' : (c == p && strStarts s ps) = true := h
    rw [Bool.and_eq_true] at h' ⊢
    exact ⟨h'.1, strStarts_append_left ps s t h'.2⟩

/-- A pattern no longer than `s` matches a prefix of `s ++ t` iff it matches
a prefix of `s`. -/
theorem strStarts_append_eq : ∀ (p s t : Str), p.length ≤ s.length →
    strStarts (s ++ t) p = strStarts s p
  | [], s, t, _ => by rw [strStarts_nil_pat, strStarts_nil_pat]
  | p :: ps, [], t, h => by simp at h
  | p :: ps, c :: s, t, h => by
    rw [List.cons_append]
    show (c == p && strStarts (s ++ t) ps) = (c == p && strStarts s ps)
    rw [strStarts_append_eq ps s t (Nat.le_of_succ_le_succ h)]

/-- The empty pattern occurs in every string. -/
theorem strHasSub_pat_nil : ∀ (t : Str), strHasSub t [] = true
  | [] => rfl
  | _ :: _ => rfl

/-- A substring occurrence in `s` persists in `s ++ t`. -/
theorem strHasSub_append_left : ∀ (s t pat : Str), strHasSub s pat = true →
    strHasSub (s ++ t) pat = true
  | [], t, pat => by
    intro h
    match pat, h with
    | [], _ => exact strHasSub_pat_nil t
  | c :: s, t, pat => by
    intro h
    rw [List.cons_append]
    have h' : strStarts (c :: s) pat = true ∨ strHasSub s pat = true := by
      simpa [strHasSub, Bool.or_eq_true] using h
    show (strStarts (c :: (s ++ t)) pat || strHasSub (s ++ t) pat) = true
    rw [Bool.or_eq_true]
    rcases h' with h' | h'
    · exact Or.inl (strStarts_append_left pat (c :: s) t h')
    · exact Or.inr (strHasSub_append_left s t pat h')

/-- Splitting at the first colon commutes with appending past it. -/
theorem splitAtColon_append : ∀ (s t b a : Str), splitAtColon s = some (b, a) →
    splitAtColon (s ++ t) = some (b, a ++ t)
  | [], t, b, a => by intro h; cases h
  | c :: s, t, b, a => by
    intro h
    rw [List.cons_append]
    unfold splitAtColon at h ⊢
    by_cases hc : c = ':'
    · rw [if_pos hc] at h ⊢
      cases h
      rfl
    · rw [if_neg hc] at h ⊢
      cases hs : splitAtColon s with
      | none => rw [hs] at h; cases h
      | some pr =>
        obtain ⟨b', a'⟩ := pr
        rw [hs] at h
        cases h
        rw [splitAtColon_append s t b' a hs]

/-- When every URL passes the validity check, the ToonGod page-text fold
appends them all. -/
theorem tg_fold_text_all_valid : ∀ (urls acc : List Str),
    (∀ u ∈ urls, ToonGodScraper.is_valid_image_url u = true) →
    urls.foldl (fun acc u =>
      if ToonGodScraper.is_valid_image_url u then acc ++ [u] else acc) acc =
      acc ++ urls
  | [], acc, _ => by simp
  | u :: urls, acc, h => by
    rw [List.foldl_cons, if_pos (h u (List.mem_cons_self _ _))]
    rw [tg_fold_text_all_valid urls (acc ++ [u])
      (fun v hv => h v (List.mem_cons_of_mem _ hv))]
    simp

/-- Deduplication is the identity on a list of pairwise-distinct keys none of
which has been seen. -/
theorem dedupByKey_of_nodup {α β : Type} [DecidableEq β] (key : α → β) :
    ∀ (seen : List β) (l : List α), (l.map key).Nodup →
      (∀ x ∈ l, key x ∉ seen) → dedupByKey key seen l = l
  | _, [], _, _ => rfl
  | seen, x :: rest, hnd, hs => by
    unfold dedupByKey
    rw [if_neg (hs x (List.mem_cons_self _ _))]
    rw [List.map_cons, List.nodup_cons] at hnd
    congr 1
    apply dedupByKey_of_nodup key _ rest hnd.2
    intro y hy hmem
    rcases List.mem_cons.mp hmem with he | he
    · exact hnd.1 (he ▸ List.mem_map_of_mem key hy)
    · exact hs y (List.mem_cons_of_mem _ hy) he

/-- The fixed stem of the C2 counterexample URLs. -/
def c2Stem : Str := strOf "http://h/x.jpg"

/-- 201 pairwise-distinct valid image URLs used to exercise the ToonGod cap:
the stem followed by `i` copies of `a`. -/
def c2Url (i : Nat) : Str := c2Stem ++ List.replicate i 'a'

/-- A chapter page whose page-text scan yields 201 distinct valid image
URLs. -/
def c2Page : ToonGodScraper.ChapterPage := ⟨[], (List.range 201).map c2Url⟩

/-- Every counterexample URL passes the ToonGod validity check. -/
theorem c2Url_valid (i : Nat) : ToonGodScraper.is_valid_image_url (c2Url i) = true := by
  have h0 : (c2Url i).isEmpty = false := rfl
  have h1 : strStarts (c2Url i) (strOf "blob:") = false := by
    show strStarts (c2Stem ++ List.replicate i 'a') (strOf "blob:") = false
    rw [strStarts_append_eq _ _ _ (by decide)]
    decide
  have h2 : strStarts (c2Url i) (strOf "data:") = false := by
    show strStarts (c2Stem ++ List.replicate i 'a') (strOf "data:") = false
    rw [strStarts_append_eq _ _ _ (by decide)]
    decide
  have h3 : strStarts (c2Url i) (strOf "http") = true := by
    show strStarts (c2Stem ++ List.replicate i 'a') (strOf "http") = true
    rw [strStarts_append_eq _ _ _ (by decide)]
    decide
  have hext : imageExtensions.any (fun ext => strHasSub (strLower (c2Url i)) ext) = true := by
    apply List.any_eq_true.mpr
    refine ⟨strOf ".jpg", by decide, ?_⟩
    show strHasSub (strLower (c2Stem ++ List.replicate i 'a')) (strOf ".jpg") = true
    rw [strLower, List.map_append]
    exact strHasSub_append_left _ _ _ (by decide)
  have hsplit : splitAtColon (c2Url i) =
      some (strOf "http", strOf "//h/x.jpg" ++ List.replicate i 'a') :=
    splitAtColon_append c2Stem (List.replicate i 'a')
      (strOf "http") (strOf "//h/x.jpg") (by decide)
  have hnet : netloc (c2Url i) = ['h'] := by
    unfold netloc
    rw [hsplit]
    dsimp only
    rw [if_pos (by decide : (!(strOf "http").isEmpty &&
      ((strOf "http").headD 'a').isAlpha && (strOf "http").all isSchemeChar) = true)]
    show List.takeWhile (fun c => c ≠ '/' && c ≠ '?' && c ≠ '#')
      ('h' :: ('/' :: (strOf "x.jpg" ++ List.replicate i 'a'))) = ['h']
    rw [List.takeWhile_cons, if_pos (by decide), List.takeWhile_cons, if_neg (by decide)]
  unfold ToonGodScraper.is_valid_image_url
  simp [h0, h1, h2, h3, hext, hnet]

set_option maxRecDepth 4000 in
/-- C2 counterexample: on a page with 201 distinct valid candidates the
ToonGod pre-cap deduplicated list has 201 entries (beyond the cap of 200),
yet the final entry of that list is absent from the returned list -
`ToonGodScraper.extract_images_from_chapter` truncates to the first 200
rather than sampling from both ends as the claim states. -/
theorem c2_counterexample :
    (ToonGodScraper.extract_images_precap c2Page).length = 201 ∧
    c2Url 200 ∉ ToonGodScraper.extract_images_pipeline c2Page := by
  have hlen : ∀ i, (c2Url i).length = 14 + i := by
    intro i
    rw [c2Url, List.length_append, List.length_replicate,
      show List.length c2Stem = 14 from rfl]
  have hinj : Function.Injective c2Url := by
    intro i j hij
    have h := congrArg List.length hij
    rw [hlen, hlen] at h
    omega
  have hnodup : ((List.range 201).map c2Url).Nodup :=
    (List.nodup_range 201).map hinj
  have hprecap : ToonGodScraper.extract_images_precap c2Page =
      (List.range 201).map c2Url := by
    unfold ToonGodScraper.extract_images_precap
    dsimp only
    have hfold : (c2Page.textUrls).foldl (fun acc u =>
        if ToonGodScraper.is_valid_image_url u then acc ++ [u] else acc)
        ((c2Page.imgTags).foldl (fun acc tag =>
          match ManhwaScraper.firstValidAttr ToonGodScraper.is_valid_image_url tag with
          | some v => acc ++ [v]
          | none => acc) []) = (List.range 201).map c2Url := by
      have h := tg_fold_text_all_valid ((List.range 201).map c2Url) []
        (fun u hu => by
          obtain ⟨j, _, rfl⟩ := List.mem_map.mp hu
          exact c2Url_valid j)
      simpa using h
    rw [hfold]
    apply dedupByKey_of_nodup id []
    · simpa using hnodup
    · simp
  refine ⟨by rw [hprecap]; simp, ?_⟩
  have hpipe : ToonGodScraper.extract_images_pipeline c2Page =
      ((List.range 201).map c2Url).take 200 := by
    unfold ToonGodScraper.extract_images_pipeline ToonGodScraper.limit_images
    rw [hprecap, if_pos (by simp)]
  rw [hpipe, ← List.map_take,
    (by decide : (List.range 201).take 200 = List.range 200)]
  intro hmem
  obtain ⟨j, hj, hje⟩ := List.mem_map.mp hmem
  have hj200 := hinj hje
  subst hj200
  exact absurd (List.mem_range.mp hj) (by omega)

/-- C2 amended: both extractions return `limit_images` of their pre-cap
deduplicated candidate list.  The Manhwa cap keeps at most 100 URLs and, when
the pre-cap list exceeds 100, keeps its first 50 and last 50 entries - in
particular both the first and the last pre-cap entries.  The ToonGod cap
keeps at most 200 URLs but, when the pre-cap list exceeds 200, it is a plain
truncation to the first 200: the first pre-cap entry is kept, the last is
not sampled. -/
theorem c2_cap_amended (l : List Str) (base : Str) (pageM : ManhwaScraper.ChapterPage)
    (constructed : List Str) (pageT : ToonGodScraper.ChapterPage) :
    ManhwaScraper.extract_images_pipeline base pageM constructed =
      ManhwaScraper.limit_images
        (ManhwaScraper.extract_images_precap base pageM constructed) ∧
    ToonGodScraper.extract_images_pipeline pageT =
      ToonGodScraper.limit_images (ToonGodScraper.extract_images_precap pageT) ∧
    (ManhwaScraper.limit_images l).length ≤ 100 ∧
    (100 < l.length →
      (∀ x, l.head? = some x → x ∈ ManhwaScraper.limit_images l) ∧
      (∀ x, l.getLast? = some x → x ∈ ManhwaScraper.limit_images l)) ∧
    (ToonGodScraper.limit_images l).length ≤ 200 ∧
    (200 < l.length →
      ToonGodScraper.limit_images l = l.take 200 ∧
      (∀ x, l.head? = some x → x ∈ ToonGodScraper.limit_images l)) := by
  refine ⟨rfl, rfl, ?_, ?_, ?_, ?_⟩
  · unfold ManhwaScraper.limit_images
    split
    · next hgt =>
      rw [List.length_append, List.length_take, List.length_drop]
      omega
    · next hle => omega
  · intro hgt
    constructor
    · intro x hx
      match l, hx with
      | a :: t, hx =>
        rw [List.head?_cons, Option.some.injEq] at hx
        subst hx
        unfold ManhwaScraper.limit_images
        rw [if_pos (by simpa using hgt)]
        exact List.mem_append.mpr (Or.inl (by simp [List.take_succ_cons]))
    · intro x hx
      unfold ManhwaScraper.limit_images
      rw [if_pos (by simpa using hgt)]
      refine List.mem_append.mpr (Or.inr ?_)
      exact mem_drop_of_getLast? l (l.length - 50) x (by omega) hx
  · unfold ToonGodScraper.limit_images
    split
    · next hgt =>
      rw [List.length_take]
      omega
    · next hle => omega
  · intro hgt
    have heq : ToonGodScraper.limit_images l = l.take 200 := by
      unfold ToonGodScraper.limit_images
      rw [if_pos (by simpa using hgt)]
    refine ⟨heq, ?_⟩
    intro x hx
    match l, hx with
    | a :: t, hx =>
      rw [List.head?_cons, Option.some.injEq] at hx
      subst hx
      rw [heq]
      simp [List.take_succ_cons]

set_option maxRecDepth 8000 in
/-- Witness for `c2_cap_amended` at a concrete 201-entry pre-cap list: the
Manhwa cap keeps both ends, the ToonGod cap is a truncation keeping the
head. -/
theorem c2_cap_amended_witness :
    (100 < ((List.range 201).map (fun i => Nat.toDigits 10 i)).length ∧
     200 < ((List.range 201).map (fun i => Nat.toDigits 10 i)).length ∧
     ((List.range 201).map (fun i => Nat.toDigits 10 i)).head? =
       some (Nat.toDigits 10 0) ∧
     ((List.range 201).map (fun i => Nat.toDigits 10 i)).getLast? =
       some (Nat.toDigits 10 200)) ∧
    Nat.toDigits 10 0 ∈
      ManhwaScraper.limit_images ((List.range 201).map (fun i => Nat.toDigits 10 i)) ∧
    Nat.toDigits 10 200 ∈
      ManhwaScraper.limit_images ((List.range 201).map (fun i => Nat.toDigits 10 i)) ∧
    ToonGodScraper.limit_images ((List.range 201).map (fun i => Nat.toDigits 10 i)) =
      ((List.range 201).map (fun i => Nat.toDigits 10 i)).take 200 ∧
    Nat.toDigits 10 0 ∈
      ToonGodScraper.limit_images ((List.range 201).map (fun i => Nat.toDigits 10 i)) := by
  have h := c2_cap_amended ((List.range 201).map (fun i => Nat.toDigits 10 i))
    (strOf "") ⟨[], [], [], []⟩ [] ⟨[], []⟩
  refine ⟨⟨by decide, by decide, by decide, by decide⟩, ?_, ?_, ?_, ?_⟩
  · exact (h.2.2.2.1 (by decide)).1 _ (by decide)
  · exact (h.2.2.2.1 (by decide)).2 _ (by decide)
  · exact (h.2.2.2.2.2 (by decide)).1
  · exact (h.2.2.2.2.2 (by decide)).2 _ (by decide)
